import Mathlib

/-!
Verification of the territorial.io live-leaderboard refresh/diff pipeline.

The definitions below are a shallow embedding of the single source file
`src/components/Leaderboard.tsx` (the `App` component and its `fetchData`
callback).  JavaScript `number` scores are modelled as exact integers
(`Int`): every score arithmetic the pipeline performs is comparison and
subtraction, whose structure is independent of the numeric carrier, and the
specified scenarios use small integral values on which IEEE doubles are
exact.  The browser `Map` keyed by clan name is modelled as an
association list built from a list with no duplicate names, so `List.lookup`
agrees with `Map.get`.  `Array.prototype.sort` (guaranteed stable since
ES2019) with the comparator `(a, b) => b.score - a.score` produces the unique
stable reordering that is non-increasing on `score`; it is embedded as the
stable insertion sort `List.insertionSort`.
-/

/-- A raw extracted clan record (`Clan` in `types.ts`): name and score. -/
structure Clan where
  name : String
  score : Int
deriving DecidableEq

/-- `TrackedClan`: a `Clan` together with its score delta versus the
previous snapshot. -/
structure TrackedClan where
  name : String
  score : Int
  pointChange : Int
deriving DecidableEq

/-- Does the character list `pat` match at the head of `text`? -/
def charsMatchAt : List Char → List Char → Bool
  | [], _ => true
  | _ :: _, [] => false
  | p :: ps, c :: cs => p == c && charsMatchAt ps cs

/-- Does the character list `pat` occur (contiguously) anywhere in `text`?  -/
def charsContain (pat : List Char) : List Char → Bool
  | [] => charsMatchAt pat []
  | c :: cs => charsMatchAt pat (c :: cs) || charsContain pat cs

/-- Embedding of JavaScript `haystack.includes(needle)` for strings. -/
def containsSubstr (haystack needle : String) : Bool :=
  charsContain needle.data haystack.data

/-- Embedding of JavaScript `s.toLowerCase()` (the messages classified here
are ASCII, on which the two agree). -/
def toLowerStr (s : String) : String :=
  ⟨s.data.map Char.toLower⟩

/-- The identity-key test: does clan `c` carry the identity key `k`? -/
def nameIs (k : String) (c : Clan) : Bool :=
  c.name == k

/-- Inner loop of the de-duplication step (lines 159-164 of `fetchData`):
walk the extracted list, keeping a record only when its name has not been
seen before.  `seen` is the key set of the accumulating `uniqueClansMap`. -/
def dedupGo (seen : List String) : List Clan → List Clan
  | [] => []
  | c :: cs =>
      if c.name ∈ seen then dedupGo seen cs
      else c :: dedupGo (c.name :: seen) cs

/-- `uniqueClans`: first-seen-wins de-duplication by clan name.  Equals
`Array.from(uniqueClansMap.values())` since a JS `Map` preserves insertion
order and `set` is skipped for keys already present. -/
def dedupClans (l : List Clan) : List Clan :=
  dedupGo [] l

/-- One step of the delta calculation (lines 168-173 of `fetchData`):
look the clan up in the previous-snapshot map; if present the change is the
score difference, otherwise `0`. -/
def trackOne (prev : List (String × Clan)) (c : Clan) : TrackedClan :=
  match prev.lookup c.name with
  | some previousClan =>
      { name := c.name, score := c.score, pointChange := c.score - previousClan.score }
  | none => { name := c.name, score := c.score, pointChange := 0 }

/-- `trackedClans = uniqueClans.map(...)`: annotate every deduplicated clan
with its point change versus the previous snapshot. -/
def trackClans (prev : List (String × Clan)) (l : List Clan) : List TrackedClan :=
  l.map (trackOne prev)

/-- The ordering used by the comparator `(a, b) => b.score - a.score`:
`a` may come before `b` exactly when `a`'s score is at least `b`'s. -/
def scoreGE (a b : TrackedClan) : Prop :=
  b.score ≤ a.score

instance : DecidableRel scoreGE :=
  fun a b => inferInstanceAs (Decidable (b.score ≤ a.score))

instance : IsTotal TrackedClan scoreGE :=
  ⟨fun a b => le_total b.score a.score⟩

instance : IsTrans TrackedClan scoreGE :=
  ⟨fun _ _ _ hab hbc => le_trans hbc hab⟩

/-- `sortedData = trackedClans.sort((a, b) => b.score - a.score)` (line 176):
the stable descending-by-score reordering, realised as insertion sort. -/
def sortClans (l : List TrackedClan) : List TrackedClan :=
  l.insertionSort scoreGE

/-- The exact-score test used to state stability of the ranking: records
whose scores are exactly equal must keep their relative input order. -/
def scoreIs (q : Int) (t : TrackedClan) : Bool :=
  t.score == q

/-- The quota-specific user-facing message (line 192). -/
def quotaErrorText : String :=
  "Daily Gemini API quota exceeded. Live updates have been paused. Please check back tomorrow."

/-- The credential-specific user-facing message (line 195). -/
def keyErrorText : String :=
  "Failed to process data: The Gemini API key is missing or invalid. Please ensure it is configured correctly."

/-- The state owned by the `App` component: the published snapshot `clans`,
the loading flag, the optional error message, the optional last-updated
timestamp, the previous-snapshot reference `previousClansMap.current`
(an association list standing for the JS `Map`), and whether the polling
interval is still installed (`intervalRef.current !== null`). -/
structure AppState where
  clans : List TrackedClan
  loading : Bool
  errorMsg : Option String
  lastUpdated : Option Nat
  prevMap : List (String × Clan)
  polling : Bool
deriving DecidableEq

/-- `stopPolling` (lines 101-106): clear the interval so no further ticks
fire.  The JS null-check only makes it idempotent. -/
def stopPolling (s : AppState) : AppState :=
  { s with polling := false }

/-- The `catch` block of `fetchData` (lines 186-199) followed by the
`finally` (line 201): classify the failure message case-insensitively,
preferring the quota match, then the credential match, else a generic
message; quota and credential failures also stop polling. -/
def handleFailure (s : AppState) (errorMessage : String) : AppState :=
  if containsSubstr (toLowerStr errorMessage) "quota" then
    stopPolling { s with errorMsg := some quotaErrorText, loading := false }
  else if containsSubstr (toLowerStr errorMessage) "api key not valid" then
    stopPolling { s with errorMsg := some keyErrorText, loading := false }
  else
    { s with errorMsg := some ("Failed to process data with AI: " ++ errorMessage),
             loading := false }

/-- The outcome of one tick's external interactions, as `fetchData`
distinguishes them: a non-2xx HTTP status (line 114), a rejection of the
extraction call itself (line 135; quota and credential failures arrive
here), an empty/missing model response text (line 152), a model text on
which `JSON.parse` throws (line 156), or a model text that parses to a list
of clans — the nonempty string `"[]"` parses to the empty list. -/
inductive FetchResult where
  | httpError (status : Nat)
  | modelError (msg : String)
  | emptyModel
  | parseError (msg : String)
  | parsed (newClansData : List Clan)
deriving DecidableEq

/-- The message carried by the exception reaching the `catch` block, when
the tick fails (`e.message`); `none` for a successful parse. -/
def failureMessage : FetchResult → Option String
  | .httpError status => some ("Network response was not ok. Status: " ++ toString status)
  | .modelError msg => some msg
  | .emptyModel => some "AI model returned an empty response."
  | .parseError msg => some msg
  | .parsed _ => none

/-- One run of `fetchData` (lines 108-203) given the tick's external
outcome `r` and the current wall-clock reading `now`.  On success:
de-duplicate, compute deltas against `prevMap`, sort, publish, clear the
error, replace `prevMap` wholesale with the deduplicated raw clans, record
the timestamp.  On failure: delegate to the `catch` block. -/
def fetchData (s : AppState) (r : FetchResult) (now : Nat) : AppState :=
  match r with
  | .httpError status =>
      handleFailure s ("Network response was not ok. Status: " ++ toString status)
  | .modelError msg => handleFailure s msg
  | .emptyModel => handleFailure s "AI model returned an empty response."
  | .parseError msg => handleFailure s msg
  | .parsed newClansData =>
      let uniqueClans := dedupClans newClansData
      let trackedClans := trackClans s.prevMap uniqueClans
      let sortedData := sortClans trackedClans
      { clans := sortedData
        loading := false
        errorMsg := none
        lastUpdated := some now
        prevMap := uniqueClans.map (fun c => (c.name, c))
        polling := s.polling }

/-- The scheduler state seen by React's reconciler: the component state
together with the error value captured by the `fetchData` callback that
the currently-installed mount effect subscribed to.  `fetchData` is
recreated by `useCallback(..., [stopPolling, error])` (line 203), and the
mount effect depends on it (`useEffect(..., [fetchData, stopPolling])`,
lines 205-210), so the effect re-fires whenever the error state changed
since the effect last ran. -/
structure SchedState where
  app : AppState
  subscribedError : Option String
deriving DecidableEq

/-- One firing opportunity of the event loop.  When the error state
differs from what the installed effect captured, the effect re-fires
first: its cleanup clears the old interval, its body immediately executes
another `fetchData` run and synchronously reinstalls the interval (so the
run starts with polling on and may clear it again via `stopPolling`), and
the new subscription captures the error of the render that re-created the
callback.  Otherwise the interval fires `fetchData` only while installed,
and a stopped scheduler with a stable error does nothing. -/
def step (s : SchedState) (r : FetchResult) (now : Nat) : SchedState :=
  if s.app.errorMsg ≠ s.subscribedError then
    { app := fetchData { s.app with polling := true } r now
      subscribedError := s.app.errorMsg }
  else if s.app.polling then
    { app := fetchData s.app r now, subscribedError := s.subscribedError }
  else
    s

/-- A concrete running state with one published snapshot, used to
instantiate the theorems below on explicit inputs. -/
def runningState : AppState :=
  { clans := [⟨"A", 100, 0⟩]
    loading := false
    errorMsg := none
    lastUpdated := some 0
    prevMap := [("A", ⟨"A", 100⟩)]
    polling := true }

/-- The concrete running scheduler: the healthy state above with its
effect subscription in sync (the installed callback captured `none`, the
current error value). -/
def runningSched : SchedState :=
  { app := runningState, subscribedError := none }

/-- A failure message mentioning both classification markers. -/
def dualMarkerMsg : String :=
  "Resource exhausted: quota exceeded because the API key not valid"

/-- A failure message matching only the quota marker. -/
def quotaFailMsg : String :=
  "You exceeded your current quota, please check your plan and billing details."

/-- A failure message matching only the credential marker. -/
def keyFailMsg : String :=
  "API key not valid. Please pass a valid API key."

/-- The previous snapshot of the worked scenario in the specification:
`{A: 100, B: 90}`. -/
def scenarioPrev : List (String × Clan) :=
  [("A", ⟨"A", 100⟩), ("B", ⟨"B", 90⟩)]

/-- The raw extraction of the worked scenario: `[{A,110},{B,90},{A,110}]`. -/
def scenarioRaw : List Clan :=
  [⟨"A", 110⟩, ⟨"B", 90⟩, ⟨"A", 110⟩]

/-! ### Helper lemmas about the scheduler -/

lemma fetchData_eq_handleFailure (s : AppState) (r : FetchResult) (now : Nat) (m : String)
    (hm : failureMessage r = some m) : fetchData s r now = handleFailure s m := by
  cases r with
  | httpError status =>
      simp only [failureMessage, Option.some.injEq] at hm
      rw [← hm]; rfl
  | modelError msg =>
      simp only [failureMessage, Option.some.injEq] at hm
      rw [← hm]; rfl
  | emptyModel =>
      simp only [failureMessage, Option.some.injEq] at hm
      rw [← hm]; rfl
  | parseError msg =>
      simp only [failureMessage, Option.some.injEq] at hm
      rw [← hm]; rfl
  | parsed l => exact Option.noConfusion hm

lemma handleFailure_clans (s : AppState) (m : String) :
    (handleFailure s m).clans = s.clans := by
  unfold handleFailure stopPolling
  split
  · rfl
  · split <;> rfl

lemma handleFailure_prevMap (s : AppState) (m : String) :
    (handleFailure s m).prevMap = s.prevMap := by
  unfold handleFailure stopPolling
  split
  · rfl
  · split <;> rfl

lemma handleFailure_lastUpdated (s : AppState) (m : String) :
    (handleFailure s m).lastUpdated = s.lastUpdated := by
  unfold handleFailure stopPolling
  split
  · rfl
  · split <;> rfl

lemma handleFailure_quota (s : AppState) (m : String)
    (hq : containsSubstr (toLowerStr m) "quota" = true) :
    handleFailure s m = stopPolling { s with errorMsg := some quotaErrorText, loading := false } := by
  unfold handleFailure
  rw [hq]
  rfl

lemma handleFailure_key (s : AppState) (m : String)
    (hq : containsSubstr (toLowerStr m) "quota" = false)
    (hk : containsSubstr (toLowerStr m) "api key not valid" = true) :
    handleFailure s m = stopPolling { s with errorMsg := some keyErrorText, loading := false } := by
  unfold handleFailure
  rw [hq, hk]
  rfl


/-! ### Deduplicator lemmas -/

lemma dedupGo_mem_not_seen (l : List Clan) : ∀ (seen : List String) (c : Clan),
    c ∈ dedupGo seen l → c.name ∉ seen := by
  induction l with
  | nil => intro seen c hc; cases hc
  | cons a as ih =>
      intro seen c hc
      simp only [dedupGo] at hc
      by_cases ha : a.name ∈ seen
      · rw [if_pos ha] at hc
        exact ih seen c hc
      · rw [if_neg ha] at hc
        rcases List.mem_cons.mp hc with rfl | hc2
        · exact ha
        · intro hs
          exact ih (a.name :: seen) c hc2 (List.mem_cons_of_mem _ hs)

lemma dedupGo_names_nodup (l : List Clan) : ∀ seen : List String,
    ((dedupGo seen l).map Clan.name).Nodup := by
  induction l with
  | nil => intro seen; simp [dedupGo]
  | cons a as ih =>
      intro seen
      simp only [dedupGo]
      by_cases ha : a.name ∈ seen
      · rw [if_pos ha]
        exact ih seen
      · rw [if_neg ha]
        simp only [List.map_cons, List.nodup_cons]
        refine ⟨?_, ih (a.name :: seen)⟩
        intro hmem
        rcases List.mem_map.mp hmem with ⟨c, hc, hname⟩
        refine dedupGo_mem_not_seen as (a.name :: seen) c hc ?_
        rw [hname]
        exact List.mem_cons_self _ _

lemma dedupGo_find? (l : List Clan) : ∀ (seen : List String) (k : String), k ∉ seen →
    (dedupGo seen l).find? (nameIs k) = l.find? (nameIs k) := by
  induction l with
  | nil => intro seen k _; rfl
  | cons a as ih =>
      intro seen k hk
      simp only [dedupGo]
      by_cases ha : a.name ∈ seen
      · rw [if_pos ha]
        have hne : ¬(nameIs k a = true) := by
          simp only [nameIs, beq_iff_eq]
          intro h
          exact hk (h ▸ ha)
        rw [List.find?_cons_of_neg _ hne]
        exact ih seen k hk
      · rw [if_neg ha]
        by_cases hak : a.name = k
        · have hpos : nameIs k a = true := by
            simp only [nameIs, beq_iff_eq]
            exact hak
          rw [List.find?_cons_of_pos _ hpos, List.find?_cons_of_pos _ hpos]
        · have hneg : ¬(nameIs k a = true) := by
            simp only [nameIs, beq_iff_eq]
            exact hak
          rw [List.find?_cons_of_neg _ hneg, List.find?_cons_of_neg _ hneg]
          refine ih (a.name :: seen) k ?_
          intro hmem
          rcases List.mem_cons.mp hmem with h | h
          · exact hak h.symm
          · exact hk h

/-! ### Delta-calculator lemmas -/

lemma trackOne_name (prev : List (String × Clan)) (c : Clan) :
    (trackOne prev c).name = c.name := by
  unfold trackOne
  cases prev.lookup c.name <;> rfl

lemma trackOne_score (prev : List (String × Clan)) (c : Clan) :
    (trackOne prev c).score = c.score := by
  unfold trackOne
  cases prev.lookup c.name <;> rfl

/-! ### Ranker stability lemmas -/

lemma filter_scoreIs_orderedInsert (x : TrackedClan) (q : Int) (l : List TrackedClan) :
    (l.orderedInsert scoreGE x).filter (scoreIs q) =
      if scoreIs q x then x :: l.filter (scoreIs q) else l.filter (scoreIs q) := by
  induction l with
  | nil =>
      cases hx : scoreIs q x <;> simp [List.orderedInsert, List.filter, hx]
  | cons b m ih =>
      simp only [List.orderedInsert]
      by_cases hr : scoreGE x b
      · rw [if_pos hr]
        cases hx : scoreIs q x <;> simp [List.filter_cons, hx]
      · rw [if_neg hr]
        rw [List.filter_cons, ih, List.filter_cons]
        by_cases hx : scoreIs q x
        · rw [if_pos hx, if_pos hx]
          have hxq : x.score = q := by
            have hx2 := hx
            simp only [scoreIs, beq_iff_eq] at hx2
            exact hx2
          have hlt : x.score < b.score := not_le.mp hr
          have hb : scoreIs q b = false := by
            simp only [scoreIs, beq_eq_false_iff_ne]
            intro hbq
            rw [hbq, ← hxq] at hlt
            exact lt_irrefl _ hlt
          rw [hb]
          simp
        · rw [if_neg hx, if_neg hx]

lemma filter_scoreIs_sortClans (q : Int) (l : List TrackedClan) :
    (sortClans l).filter (scoreIs q) = l.filter (scoreIs q) := by
  induction l with
  | nil => rfl
  | cons x m ih =>
      show (List.orderedInsert scoreGE x (List.insertionSort scoreGE m)).filter (scoreIs q)
        = (x :: m).filter (scoreIs q)
      rw [filter_scoreIs_orderedInsert]
      unfold sortClans at ih
      rw [ih, List.filter_cons]

/-! ### Claim C1 -/

/-- Counterexample to claim C1 as stated: when the extraction service
returns the string literally denoting an empty record list (the nonempty
text that parses to the empty array, embedded as `.parsed []`), the run is
not a failure: no error message is set, the previously published snapshot
is replaced by the empty snapshot rather than remaining visible, and the
completion timestamp is even recorded. -/
theorem emptyArray_published_not_failure :
    (fetchData runningState (.parsed []) 1).errorMsg = none ∧
    (fetchData runningState (.parsed []) 1).clans = [] ∧
    runningState.clans ≠ [] ∧
    (fetchData runningState (.parsed []) 1).lastUpdated = some 1 := by
  refine ⟨rfl, rfl, ?_, rfl⟩
  decide

/-- Claim C1 (amended): if the extraction service returns genuinely empty
output (an empty or missing response text), the run fails with an
extraction failure — the published snapshot and the previous-snapshot
reference are unchanged and the generic extraction error message is set;
but output denoting an empty record list (such as the string representing
the empty array) is processed as a successful run that publishes an empty
snapshot with no error. -/
theorem empty_extraction_output (s : AppState) (now : Nat) :
    ((fetchData s .emptyModel now).clans = s.clans ∧
     (fetchData s .emptyModel now).prevMap = s.prevMap ∧
     (fetchData s .emptyModel now).errorMsg =
       some "Failed to process data with AI: AI model returned an empty response.") ∧
    ((fetchData s (.parsed []) now).errorMsg = none ∧
     (fetchData s (.parsed []) now).clans = []) :=
  ⟨⟨rfl, rfl, rfl⟩, rfl, rfl⟩

/-! ### Claim C2 -/

/-- Claim C2: for every input sequence of records, the deduplicated output
has pairwise distinct identity keys, and for every key the first matching
record of the output equals the first matching record of the input (both
sides are `none` exactly when the key is absent, so the keys of the output
are precisely the keys of the input, each carried by its first
occurrence); the empty input yields the empty output. -/
theorem deduplicator_first_seen_wins (l : List Clan) :
    ((dedupClans l).map Clan.name).Nodup ∧
    (∀ k : String, (dedupClans l).find? (nameIs k) = l.find? (nameIs k)) ∧
    dedupClans ([] : List Clan) = [] :=
  ⟨dedupGo_names_nodup l [], fun k => dedupGo_find? l [] k (List.not_mem_nil k), rfl⟩

/-! ### Claim C3 -/

/-- Claim C3: the delta calculator preserves the names and the scores of
its input in order, and every output record's `pointChange` is the score
difference against the previous snapshot when its key is present there and
`0` when the key is absent. -/
theorem delta_calculator_pointChange (prev : List (String × Clan)) (l : List Clan) :
    ((trackClans prev l).map TrackedClan.name = l.map Clan.name) ∧
    ((trackClans prev l).map TrackedClan.score = l.map Clan.score) ∧
    (∀ t ∈ trackClans prev l,
      (∀ p : Clan, prev.lookup t.name = some p → t.pointChange = t.score - p.score) ∧
      (prev.lookup t.name = none → t.pointChange = 0)) := by
  refine ⟨?_, ?_, ?_⟩
  · unfold trackClans
    rw [List.map_map]
    have hfun : TrackedClan.name ∘ trackOne prev = Clan.name :=
      funext fun c => trackOne_name prev c
    rw [hfun]
  · unfold trackClans
    rw [List.map_map]
    have hfun : TrackedClan.score ∘ trackOne prev = Clan.score :=
      funext fun c => trackOne_score prev c
    rw [hfun]
  · intro t ht
    rcases List.mem_map.mp ht with ⟨c, _, rfl⟩
    constructor
    · intro p hp
      rw [trackOne_name prev c] at hp
      unfold trackOne
      rw [hp]
    · intro hnone
      rw [trackOne_name prev c] at hnone
      unfold trackOne
      rw [hnone]

/-- Witness for claim C3 on a concrete input: against the previous snapshot
`{A: 100, B: 90}`, the tracked record for `A` at score `110` carries delta
`110 - 100`, and a completely new key `C` carries delta `0` despite its
large score. -/
theorem delta_calculator_pointChange_witness :
    ((⟨"A", 110, 10⟩ : TrackedClan).pointChange
        = (⟨"A", 110, 10⟩ : TrackedClan).score - (⟨"A", 100⟩ : Clan).score) ∧
    ((⟨"C", 500, 0⟩ : TrackedClan).pointChange = 0) := by
  have h := delta_calculator_pointChange scenarioPrev [⟨"A", 110⟩, ⟨"C", 500⟩]
  exact ⟨(h.2.2 ⟨"A", 110, 10⟩ (by decide)).1 ⟨"A", 100⟩ (by decide),
    (h.2.2 ⟨"C", 500, 0⟩ (by decide)).2 (by decide)⟩

/-! ### Claim C4 -/

/-- Claim C4: the ranker's output is a permutation of its input (the same
multiset of records), it is pairwise non-increasing on score, and it is
stable: for every score value, the subsequence of records carrying exactly
that score is unchanged, so exact ties keep their relative input order. -/
theorem ranker_sorted_stable (l : List TrackedClan) :
    List.Perm (sortClans l) l ∧
    List.Sorted scoreGE (sortClans l) ∧
    ∀ q : Int, (sortClans l).filter (scoreIs q) = l.filter (scoreIs q) :=
  ⟨List.perm_insertionSort scoreGE l, List.sorted_insertionSort scoreGE l,
    fun q => filter_scoreIs_sortClans q l⟩

/-! ### Claim C5 -/

/-- Claim C5 (code bug): the quota classification does set the
quota-specific message and clears the interval within the failing run —
but, contrary to the claim and to the stated intent (no further automatic
retries), the Stopped state is not terminal.  The run changed the error
state, so the mount effect re-fires: at the very next event of the loop a
further pipeline run executes (here it replaces the published snapshot)
and the interval is reinstalled, resuming polling. -/
theorem quota_stop_not_terminal :
    (step runningSched (.modelError quotaFailMsg) 7).app.errorMsg = some quotaErrorText ∧
    (step runningSched (.modelError quotaFailMsg) 7).app.polling = false ∧
    (step (step runningSched (.modelError quotaFailMsg) 7) (.parsed [⟨"C", 5⟩]) 8).app.clans
      = [⟨"C", 5, 0⟩] ∧
    (step (step runningSched (.modelError quotaFailMsg) 7) (.parsed [⟨"C", 5⟩]) 8).app.polling
      = true := by
  refine ⟨by decide, by decide, by decide, by decide⟩

/-! ### Claim C6 -/

/-- Counterexample to claim C6 as stated, in both of its assertions:
(i) a failure that reports an invalid credential (its message contains
`"api key not valid"` — the marker the code itself uses to recognise
credential reports) but also mentions `"quota"` does not receive the
credential-specific message, because the quota classification fires
first; and (ii) the stopped state reached by a pure credential failure is
not terminal — the error change re-fires the mount effect, so the next
event of the loop executes a further run (here it replaces the published
snapshot) and reinstalls the interval. -/
theorem credential_claim_refuted :
    containsSubstr (toLowerStr dualMarkerMsg) "api key not valid" = true ∧
    (fetchData runningState (.modelError dualMarkerMsg) 0).errorMsg ≠ some keyErrorText ∧
    (fetchData runningState (.modelError dualMarkerMsg) 0).errorMsg = some quotaErrorText ∧
    (step runningSched (.modelError keyFailMsg) 2).app.polling = false ∧
    (step (step runningSched (.modelError keyFailMsg) 2) (.parsed [⟨"D", 7⟩]) 3).app.clans
      = [⟨"D", 7, 0⟩] ∧
    (step (step runningSched (.modelError keyFailMsg) 2) (.parsed [⟨"D", 7⟩]) 3).app.polling
      = true := by
  refine ⟨by decide, by decide, rfl, by decide, by decide, by decide⟩

/-- Claim C6 (amended): every failing run whose message contains
`"api key not valid"` case-insensitively clears the polling interval at
the end of that run, and sets the credential-specific message when the
message does not also contain `"quota"` — otherwise the quota-specific
message takes precedence.  The resulting stopped state is not terminal:
as the counterexample shows, the effect re-subscription executes a
further run afterwards. -/
theorem credential_failure_classified (s : AppState) (r : FetchResult) (now : Nat) (m : String)
    (hm : failureMessage r = some m)
    (hk : containsSubstr (toLowerStr m) "api key not valid" = true) :
    (fetchData s r now).polling = false ∧
    (containsSubstr (toLowerStr m) "quota" = false →
      (fetchData s r now).errorMsg = some keyErrorText) ∧
    (containsSubstr (toLowerStr m) "quota" = true →
      (fetchData s r now).errorMsg = some quotaErrorText) := by
  rw [fetchData_eq_handleFailure s r now m hm]
  cases hq : containsSubstr (toLowerStr m) "quota" with
  | false =>
      rw [handleFailure_key s m hq hk]
      exact ⟨rfl, fun _ => rfl, fun hc => Bool.noConfusion hc⟩
  | true =>
      rw [handleFailure_quota s m hq]
      exact ⟨rfl, fun hc => Bool.noConfusion hc, fun _ => rfl⟩

/-- Witness for the amended claim C6: the service's actual invalid-key
message leaves the run with the interval cleared and the
credential-specific message set. -/
theorem credential_failure_classified_witness :
    (fetchData runningState (.modelError keyFailMsg) 2).polling = false ∧
    (fetchData runningState (.modelError keyFailMsg) 2).errorMsg = some keyErrorText := by
  have h := credential_failure_classified runningState (.modelError keyFailMsg) 2 keyFailMsg rfl
    (by decide)
  exact ⟨h.1, h.2.1 (by decide)⟩

/-! ### Claim C7 -/

/-- Claim C7: every failing run, of any failure class, leaves both the
published snapshot and the previous-snapshot reference exactly as they
were. -/
theorem failure_preserves_published (s : AppState) (r : FetchResult) (now : Nat) (m : String)
    (hm : failureMessage r = some m) :
    (fetchData s r now).clans = s.clans ∧ (fetchData s r now).prevMap = s.prevMap := by
  rw [fetchData_eq_handleFailure s r now m hm]
  exact ⟨handleFailure_clans s m, handleFailure_prevMap s m⟩

/-- Witness for claim C7: a concrete transport failure (HTTP 502) leaves
the published snapshot and the previous-snapshot reference unchanged. -/
theorem failure_preserves_published_witness :
    (fetchData runningState (.httpError 502) 4).clans = runningState.clans ∧
    (fetchData runningState (.httpError 502) 4).prevMap = runningState.prevMap :=
  failure_preserves_published runningState (.httpError 502) 4
    ("Network response was not ok. Status: " ++ toString 502) rfl

/-! ### Claim C8 -/

/-- Claim C8: after every successful run the previous-snapshot reference is
replaced wholesale by the mapping built from the deduplicated current
records (raw name/score pairs, not the delta-annotated or ranked ones),
the new ranked snapshot is published, the error message is cleared, and
the completion timestamp is recorded. -/
theorem success_replaces_reference (s : AppState) (newClansData : List Clan) (now : Nat) :
    (fetchData s (.parsed newClansData) now).prevMap
        = (dedupClans newClansData).map (fun c => (c.name, c)) ∧
    (fetchData s (.parsed newClansData) now).clans
        = sortClans (trackClans s.prevMap (dedupClans newClansData)) ∧
    (fetchData s (.parsed newClansData) now).errorMsg = none ∧
    (fetchData s (.parsed newClansData) now).lastUpdated = some now :=
  ⟨rfl, rfl, rfl, rfl⟩

/-! ### Claim C9 -/

/-- Claim C9: on the worked scenario — previous snapshot `{A: 100, B: 90}`
and raw extraction `[{A,110},{B,90},{A,110}]` — deduplication yields
`[{A,110},{B,90}]`, delta tracking yields `[{A,110,+10},{B,90,0}]`, and
ranking leaves that list unchanged since `A` already has the higher
score. -/
theorem worked_scenario_pipeline :
    dedupClans scenarioRaw = [⟨"A", 110⟩, ⟨"B", 90⟩] ∧
    trackClans scenarioPrev (dedupClans scenarioRaw)
      = [⟨"A", 110, 10⟩, ⟨"B", 90, 0⟩] ∧
    sortClans (trackClans scenarioPrev (dedupClans scenarioRaw))
      = [⟨"A", 110, 10⟩, ⟨"B", 90, 0⟩] :=
  ⟨by decide, by decide, by decide⟩

/-! ### Claim C10 -/

/-- Claim C10: classification precedence is fixed: a failure message
containing both `"quota"` and `"api key not valid"` case-insensitively is
classified as a quota failure — the quota-specific message is set, the
credential-specific one is not, and polling is stopped. -/
theorem quota_beats_credential (s : AppState) (r : FetchResult) (now : Nat) (m : String)
    (hm : failureMessage r = some m)
    (hq : containsSubstr (toLowerStr m) "quota" = true)
    (_hk : containsSubstr (toLowerStr m) "api key not valid" = true) :
    (fetchData s r now).errorMsg = some quotaErrorText ∧
    (fetchData s r now).errorMsg ≠ some keyErrorText ∧
    (fetchData s r now).polling = false := by
  rw [fetchData_eq_handleFailure s r now m hm, handleFailure_quota s m hq]
  refine ⟨rfl, ?_, rfl⟩
  intro hcontra
  exact absurd (Option.some.inj hcontra) (by decide)

/-- Witness for claim C10: on a concrete message carrying both markers the
quota message is chosen, the credential message is not, and polling
stops. -/
theorem quota_beats_credential_witness :
    (fetchData runningState (.modelError dualMarkerMsg) 9).errorMsg = some quotaErrorText ∧
    (fetchData runningState (.modelError dualMarkerMsg) 9).errorMsg ≠ some keyErrorText ∧
    (fetchData runningState (.modelError dualMarkerMsg) 9).polling = false :=
  quota_beats_credential runningState (.modelError dualMarkerMsg) 9 dualMarkerMsg rfl
    (by decide) (by decide)
